import Mathlib

/-!
# consul-alerting: verification of the monitoring core

Shallow embedding of the distributed alerting daemon `consul-alerting`
(Go).  Pure functions of the source are translated directly; the
stateful pieces (the per-iteration body of the subject-monitor loop in
`watch.go`, the quiescence gate `tryAlert` in the alert module, and the
per-iteration bodies of the discovery loops) are modelled as explicit
state-passing functions whose KV-store and catalog interactions are
parameters of the step.

Go `map[string]T` values are modelled as association lists with
last-write-wins assignment (`upsert`); Go map lookup `v, ok := m[k]`
becomes `kvLookup m k`.  Health statuses are the literal strings of
the Consul API (`"passing"`, `"warning"`, `"critical"`).
-/

/-- `api.HealthPassing` from the Consul API. -/
def healthPassing : String := "passing"

/-- `api.HealthWarning` from the Consul API. -/
def healthWarning : String := "warning"

/-- `api.HealthCritical` from the Consul API. -/
def healthCritical : String := "critical"

/-- Go map assignment `m[k] = v` on an association-list model of a
`map[string]T`: replaces the binding in place if the key is present,
appends otherwise. -/
def upsert {α : Type} (m : List (String × α)) (k : String) (v : α) :
    List (String × α) :=
  match m with
  | [] => [(k, v)]
  | (k', v') :: rest => if k' = k then (k, v) :: rest else (k', v') :: upsert rest k v

/-- Go map read `v, ok := m[k]` on the association-list model:
the first binding of the key, if any. -/
def kvLookup {α : Type} (m : List (String × α)) (k : String) : Option α :=
  match m with
  | [] => none
  | (k', v) :: rest => if k' = k then some v else kvLookup rest k

/-- `api.HealthCheck`: the fields of a Consul health-check record used
by the alerting core (`Node`, `CheckID`, `Name`, `Status`, `ServiceID`,
`ServiceName`, `Output`). -/
structure HealthCheck where
  node : String
  checkID : String
  name : String
  status : String
  serviceID : String
  serviceName : String
  output : String
deriving DecidableEq, Repr

/-- `CheckUpdate` from `watch.go`: a health check paired with the
service tag of the watch that produced it. -/
structure CheckUpdate where
  serviceTag : String
  healthCheck : HealthCheck
deriving DecidableEq, Repr

/-- `AlertState` from the alert module (the `update_index` variant):
the per-subject alert record persisted at the `alert` KV key. -/
structure AlertState where
  status : String
  node : String
  service : String
  tag : String
  updateIndex : Int
  lastAlerted : String
  message : String
  details : String
deriving DecidableEq, Repr

/-- `CheckState` from `check.go`: the last known status of one health
check, persisted per check under the subject's KV prefix. -/
structure CheckState where
  status : String
deriving DecidableEq, Repr

/-- An alert sink (`AlertHandler` in `handler.go`).  In the source the
interface method is `Alert(datacenter string, alert *AlertState)` with
no return value: delivery failures are logged (and possibly retried)
inside the handler and are never reported to the caller.  The
`succeeds` field records whether the handler's external delivery
ultimately succeeds; faithfully to the interface, nothing in the
embedded `tryAlert` reads it. -/
structure AlertHandler where
  succeeds : Bool
deriving DecidableEq, Repr

/-- Per-service configuration block (`ServiceConfig` in `config.go`). -/
structure ServiceConfig where
  changeThreshold : Int
  distinctTags : Bool
  ignoredTags : List String
  handlers : List String
deriving DecidableEq, Repr

/-- The daemon configuration (`Config` in `config.go`), restricted to
the fields the monitoring core reads. -/
structure Config where
  consulDatacenter : String
  changeThreshold : Int
  defaultHandlers : List String
  handlers : List (String × AlertHandler)
  services : List (String × ServiceConfig)

/-- `Config.serviceConfig` from `config.go`: the per-service override
block, if one is configured. -/
def Config.serviceConfig (config : Config) (service : String) : Option ServiceConfig :=
  kvLookup config.services service

/-- `Config.serviceHandlers` from `config.go`: the configured alert
handlers for a service, filtered by the service's `handlers` list,
falling back to `default_handlers`. -/
def Config.serviceHandlers (c : Config) (service : String) : List AlertHandler :=
  let filters :=
    match c.serviceConfig service with
    | some serviceConfig => serviceConfig.handlers
    | none => []
  let filters := if filters = [] then c.defaultHandlers else filters
  (c.handlers.filter (fun nh => filters = [] || filters.contains nh.1)).map (·.2)

/-- `Config.serviceChangeThreshold` from `config.go`: the quiescence
threshold for a service, defaulting to the global threshold. -/
def Config.serviceChangeThreshold (c : Config) (service : String) : Int :=
  match c.serviceConfig service with
  | some serviceConfig => serviceConfig.changeThreshold
  | none => c.changeThreshold

/-- A node's catalog entry (`api.CatalogNode`), reduced to the map from
service name to the tags registered for that service on the node. -/
structure CatalogNode where
  services : List (String × List String)
deriving DecidableEq, Repr

/-- `WatchOptions` from `watch.go`.  The Go struct carries a Consul
client; the embedding replaces it by the one catalog operation the
watch code performs through it, `client.Catalog().Node`, as the
function `catalog` (returning `Except Unit` for the error case). -/
structure WatchOptions where
  node : String
  service : String
  tag : String
  config : Config
  catalog : String → Except Unit CatalogNode

/-- `contains` from `watch.go`: membership test on a string slice. -/
def containsStr (s : List String) (e : String) : Bool :=
  match s with
  | [] => false
  | a :: rest => if a = e then true else containsStr rest e

/-- `computeHealth` from `check.go`: folds the statuses of a
`map[string]string` of checks into an overall health, starting from
`passing`, raising to `warning` unless already `critical`, and to
`critical` permanently. -/
def computeHealth (checks : List (String × String)) : String :=
  checks.foldl
    (fun health kv =>
      if kv.2 = healthWarning then
        (if health ≠ healthCritical then healthWarning else health)
      else if kv.2 = healthCritical then healthCritical
      else health)
    healthPassing

/-- The KV path computed by `updateCheckState` in `check.go` for one
check update: under `service/consul-alerting`, either
`/service/<serviceID>/[<tag>/]<node>/<checkID>` or
`/node/<node>/<checkID>`. -/
def checkStatePath (update : CheckUpdate) : String :=
  let check := update.healthCheck
  let kvPath := "service/consul-alerting"
  if check.serviceID ≠ "" then
    let tagPath := if update.serviceTag ≠ "" then update.serviceTag ++ "/" else ""
    kvPath ++ "/service/" ++ check.serviceID ++ "/" ++ tagPath ++ check.node ++ "/" ++ check.checkID
  else
    kvPath ++ "/node/" ++ check.node ++ "/" ++ check.checkID

/-- `updateCheckState` from `check.go`: persists `CheckState{status}`
at the canonical path; returns whether the KV put succeeded.  The KV
store's behaviour is a parameter `putOk` mapping each path to the
success of a put on it. -/
def updateCheckState (update : CheckUpdate) (putOk : String → Bool) : Bool :=
  putOk (checkStatePath update)

/-- `strings.TrimSpace`: drops leading and trailing whitespace.
Implemented over the character list so that it reduces in the kernel. -/
def trimSpace (s : String) : String :=
  ⟨(((s.data.dropWhile Char.isWhitespace).reverse.dropWhile Char.isWhitespace).reverse)⟩

/-- `nodeDetails` from the alert module: concatenates every failing
non-service check with its output, prefixed by a header when
non-empty. -/
def nodeDetails (checks : List HealthCheck) : String :=
  let details := checks.foldl
    (fun details check =>
      if check.serviceID = "" && (check.status = healthCritical || check.status = healthWarning) then
        details ++ "=> (check) " ++ check.name ++ ":\n" ++ check.output
      else details)
    ""
  let details := if details ≠ "" then "Failing checks:\n" ++ details else details
  trimSpace details

/-- `serviceDetails` from the alert module: groups failing checks by
node and concatenates their outputs.  The Go code iterates a freshly
built map; the embedding uses first-insertion order, which fixes one of
the iteration orders Go may produce. -/
def serviceDetails (checks : List HealthCheck) : String :=
  let nodeStatuses := checks.foldl
    (fun nodeStatuses check =>
      if check.status = healthCritical || check.status = healthWarning then
        match kvLookup nodeStatuses check.node with
        | some prev =>
            upsert nodeStatuses check.node
              (prev ++ "==> (check) " ++ check.name ++ ":\n" ++ check.output)
        | none =>
            upsert nodeStatuses check.node ("==> (check) " ++ check.name ++ ":\n" ++ check.output)
      else nodeStatuses)
    ([] : List (String × String))
  let details :=
    if nodeStatuses.length > 0 then
      nodeStatuses.foldl
        (fun details nodeStatus =>
          details ++ "=> (node) " ++ nodeStatus.1 ++ "\n" ++ nodeStatus.2)
        "Failing checks:\n"
    else ""
  trimSpace details

/-- `diffServiceChecks` from `watch.go`: the checks whose status
changed relative to `lastStatus`, keyed by `node/checkID`.  A changed
check passes through the catalog tag filter when the watch has a tag; a
check new to `lastStatus` is recorded unconditionally with the watch's
tag. -/
def diffServiceChecks (checks : List HealthCheck)
    (lastStatus : List (String × String)) (opts : WatchOptions) :
    List (String × CheckUpdate) :=
  checks.foldl
    (fun updates check =>
      let checkHash := check.node ++ "/" ++ check.checkID
      match kvLookup lastStatus checkHash with
      | some oldStatus =>
        if oldStatus ≠ check.status then
          if opts.tag ≠ "" then
            match opts.catalog check.node with
            | .error _ => updates
            | .ok node =>
              match kvLookup node.services opts.service with
              | some nodeServiceTags =>
                if containsStr nodeServiceTags opts.tag then
                  upsert updates checkHash ⟨opts.tag, check⟩
                else updates
              | none => updates
          else
            upsert updates checkHash ⟨"", check⟩
        else updates
      | none => upsert updates checkHash ⟨opts.tag, check⟩)
    []

/-- `diffNodeChecks` from `watch.go`: the non-service checks whose
status changed relative to `lastStatus` (or are new to it), keyed by
`node/checkID`. -/
def diffNodeChecks (checks : List HealthCheck)
    (lastStatus : List (String × String)) (opts : WatchOptions) :
    List (String × CheckUpdate) :=
  checks.foldl
    (fun updates check =>
      let checkHash := opts.node ++ "/" ++ check.checkID
      if check.serviceID = "" then
        match kvLookup lastStatus checkHash with
        | some oldStatus =>
          if oldStatus ≠ check.status then upsert updates checkHash ⟨"", check⟩
          else updates
        | none => upsert updates checkHash ⟨"", check⟩
      else updates)
    []

/-- `NodeWatch` constant from `watch.go`. -/
def NodeWatch : String := "node"

/-- `ServiceWatch` constant from `watch.go`. -/
def ServiceWatch : String := "service"

/-- The observable outcome of one iteration of the leading loop in
`watch` (`watch.go`): the in-memory caches after the iteration and the
alert proposals handed to the quiescence gate (`go tryAlert(...)`). -/
structure WatchStepResult where
  lastCheckStatus : List (String × String)
  lastAlertStatus : String
  proposals : List AlertState
deriving Repr

/-- One iteration of the leading loop of `watch` in `watch.go`, from a
successfully returned blocking health query `checks` onward: diff
against the cache, write each update to the KV store (success of each
put given by `putOk`), and on all-success commit the diffs to the cache,
recompute the aggregate and, when it changed, record it as
`lastAlertStatus` and hand an `AlertState` proposal to the gate. -/
def watchStep (opts : WatchOptions) (checks : List HealthCheck)
    (lastCheckStatus : List (String × String)) (lastAlertStatus : String)
    (putOk : String → Bool) : WatchStepResult :=
  let mode := if opts.service ≠ "" then ServiceWatch else NodeWatch
  let diffCheckFunc := if opts.service ≠ "" then diffServiceChecks else diffNodeChecks
  let name :=
    if mode = ServiceWatch then
      mode ++ " " ++ opts.service ++ (if opts.tag ≠ "" then " (tag: " ++ opts.tag ++ ")" else "")
    else mode ++ " " ++ opts.node
  let updates := diffCheckFunc checks lastCheckStatus opts
  if updates.length > 0 then
    let success := updates.foldl (fun success u => if updateCheckState u.2 putOk then success else false) true
    let details := if mode = NodeWatch then nodeDetails checks else serviceDetails checks
    if success then
      let lastCheckStatus :=
        updates.foldl (fun m ku => upsert m ku.1 ku.2.healthCheck.status) lastCheckStatus
      let newStatus := computeHealth lastCheckStatus
      if lastAlertStatus ≠ newStatus then
        let alert : AlertState :=
          { status := newStatus, node := "", service := "", tag := "", updateIndex := 0,
            lastAlerted := "", details := details,
            message := "[" ++ opts.config.consulDatacenter ++ "] " ++ name ++ " is now " ++ newStatus }
        ⟨lastCheckStatus, newStatus, [alert]⟩
      else ⟨lastCheckStatus, lastAlertStatus, []⟩
    else ⟨lastCheckStatus, lastAlertStatus, []⟩
  else ⟨lastCheckStatus, lastAlertStatus, []⟩

/-- The KV-store interactions of one `tryAlert` call, fixed up front:
the result of the pre-sleep `getAlertState`, the success of the
pre-sleep `setAlertState` put, and the result of the post-sleep
re-read.  Leaving the re-read arbitrary models whatever concurrent
`tryAlert` calls wrote to the key during the quiescence sleep.  A
`.error` models a transport error of the get; `.ok none` an absent (or
empty) key. -/
structure AlertKVEnv where
  get1 : Except Unit (Option AlertState)
  put1Ok : Bool
  get2 : Except Unit (Option AlertState)
deriving Repr

/-- The observable outcome of one `tryAlert` call: the `AlertState`
values it asked the KV store to put (in order), the handler invocations
`handler.Alert(datacenter, alert)` it performed (each with the state
passed), and whether it took the emission branch. -/
structure TryAlertResult where
  puts : List AlertState
  emissions : List (AlertHandler × AlertState)
  emitted : Bool
deriving Repr

/-- The pre-sleep read-modify-write of `tryAlert`: the stored state (or
a freshly seeded one when absent, with `last_alerted = passing`) with
`status`, `message` and `details` overwritten from the proposal and
`update_index` incremented.  This is the value `tryAlert` writes before
sleeping, and its `update_index` is the remembered `updateIndex`. -/
def proposalState (update : AlertState) (watchOpts : WatchOptions)
    (stored : Option AlertState) : AlertState :=
  let alert : AlertState :=
    match stored with
    | none =>
      { status := "", node := watchOpts.node, service := watchOpts.service,
        tag := watchOpts.tag, updateIndex := 0, lastAlerted := healthPassing,
        message := "", details := "" }
    | some a => a
  let alert := { alert with
    status := update.status, message := update.message, details := update.details }
  { alert with updateIndex := alert.updateIndex + 1 }

/-- `tryAlert` from the alert module (the `update_index` variant):
read-modify-write the alert state bumping `update_index`, sleep, then
re-read; emit to every configured handler and record `last_alerted` iff
the re-read state is present, still carries the remembered
`update_index`, and its `last_alerted` differs from the proposed
status. -/
def tryAlert (update : AlertState) (watchOpts : WatchOptions)
    (env : AlertKVEnv) : TryAlertResult :=
  match env.get1 with
  | .error _ => ⟨[], [], false⟩
  | .ok stored =>
    let alert := proposalState update watchOpts stored
    let updateIndex := alert.updateIndex
    if !env.put1Ok then ⟨[alert], [], false⟩
    else
      match env.get2 with
      | .error _ => ⟨[alert], [], false⟩
      | .ok none => ⟨[alert], [], false⟩
      | .ok (some reread) =>
        if reread.updateIndex = updateIndex ∧ update.status ≠ reread.lastAlerted then
          let emissions :=
            (watchOpts.config.serviceHandlers watchOpts.service).map (fun h => (h, reread))
          let reread := { reread with lastAlerted := update.status }
          ⟨[alert, reread], emissions, true⟩
        else ⟨[alert], [], false⟩

/-- The observable outcome of one iteration of a discovery loop: the
tracking map after the iteration, the watches spawned (`go watch(...)`)
during it, and the subjects whose monitors were signalled to stop. -/
structure DiscoveryStepResult where
  services : List (String × List String)
  spawned : List (String × String)
  stopped : List String
deriving Repr

/-- The body of the `discoverServices` loop for one snapshot service
(discovery module): a service new to the tracking map is recorded and
watches are spawned for it (one per non-ignored tag under
`distinct_tags`, else a single untagged watch); an already-tracked
service under `distinct_tags` has its tag list overwritten before the
new-tag check.  `spawned` lists the `(service, tag)` of each spawned
watch; the body contains no stop or removal operation, so `stopped` is
passed through unchanged. -/
def discoverServicesVisit (config : Config) (acc : DiscoveryStepResult)
    (st : String × List String) : DiscoveryStepResult :=
  let service := st.1
  let tags := st.2
  let serviceConfig := config.serviceConfig service
  match kvLookup acc.services service with
  | none =>
    let newServices := upsert acc.services service tags
    match serviceConfig with
    | some sc =>
      if tags.length > 0 ∧ sc.distinctTags then
        ⟨newServices,
         acc.spawned ++ (tags.filter (fun tag => !containsStr sc.ignoredTags tag)).map
           (fun tag => (service, tag)),
         acc.stopped⟩
      else ⟨newServices, acc.spawned ++ [(service, "")], acc.stopped⟩
    | none => ⟨newServices, acc.spawned ++ [(service, "")], acc.stopped⟩
  | some _ =>
    match serviceConfig with
    | some sc =>
      if tags.length > 0 ∧ sc.distinctTags then
        let newServices := upsert acc.services service tags
        ⟨newServices,
         acc.spawned ++ (tags.filter
           (fun tag => !containsStr sc.ignoredTags tag
             && !containsStr ((kvLookup newServices service).getD []) tag)).map
           (fun tag => (service, tag)),
         acc.stopped⟩
      else acc
    | none => acc

/-- One iteration of the `discoverServices` loop (discovery module),
from a successfully returned services snapshot onward: every snapshot
service new to the tracking map is recorded and watches are spawned for
it (one per non-ignored tag under `distinct_tags`, else a single
untagged watch); an already-tracked service under `distinct_tags` has
its tag list overwritten before the new-tag check.  `spawned` lists the
`(service, tag)` of each spawned watch; the loop body contains no stop
or removal operation, so `stopped` collects nothing. -/
def discoverServicesStep (config : Config)
    (services : List (String × List String))
    (currentServices : List (String × List String)) : DiscoveryStepResult :=
  currentServices.foldl (discoverServicesVisit config) ⟨services, [], []⟩

/-- The observable outcome of one iteration of the `discoverNodes`
loop: the tracked node list, the node watches spawned, and the nodes
whose monitors were signalled to stop. -/
structure NodeDiscoveryStepResult where
  nodes : List String
  spawned : List String
  stopped : List String
deriving Repr

/-- The body of the `discoverNodes` loop for one snapshot node: a node
not yet tracked is appended to the tracking list and a watch is spawned
for it.  The body contains no stop or removal operation, so `stopped`
is passed through unchanged. -/
def discoverNodesVisit (acc : NodeDiscoveryStepResult) (nodeName : String) :
    NodeDiscoveryStepResult :=
  if !containsStr acc.nodes nodeName then
    ⟨acc.nodes ++ [nodeName], acc.spawned ++ [nodeName], acc.stopped⟩
  else acc

/-- One iteration of the `discoverNodes` loop (discovery module), from
a successfully returned node snapshot onward. -/
def discoverNodesStep (nodes : List String) (currentNodes : List String) :
    NodeDiscoveryStepResult :=
  currentNodes.foldl discoverNodesVisit ⟨nodes, [], []⟩

/-- Severity of a status string under the order
`passing < warning < critical`; statuses other than the two elevated
ones rank lowest (specification vocabulary for C7/C10). -/
def severityRank (status : String) : Nat :=
  if status = healthCritical then 2 else if status = healthWarning then 1 else 0

/-- The canonical status string of a severity rank (specification
vocabulary for C7/C10). -/
def statusOfRank (r : Nat) : String :=
  if 2 ≤ r then healthCritical else if r = 1 then healthWarning else healthPassing

/-- Maximum severity over the statuses of a check map (specification
vocabulary for C7/C10). -/
def maxSeverity (checks : List (String × String)) : Nat :=
  checks.foldr (fun kv acc => max (severityRank kv.2) acc) 0

/-- The update map computed by one iteration of the `watch` loop: the
diff function selected by the watch mode, applied to the snapshot and
the cache (`diffCheckFunc(checks, lastCheckStatus, opts)` in
`watch.go`). -/
def watchUpdates (opts : WatchOptions) (checks : List HealthCheck)
    (lastCheckStatus : List (String × String)) : List (String × CheckUpdate) :=
  (if opts.service ≠ "" then diffServiceChecks else diffNodeChecks) checks lastCheckStatus opts

/-- The commit of a cycle's updates into the in-memory cache
(`lastCheckStatus[checkHash] = update.Status` over the update map). -/
def mergeUpdates (updates : List (String × CheckUpdate))
    (lastCheckStatus : List (String × String)) : List (String × String) :=
  updates.foldl (fun m ku => upsert m ku.1 ku.2.healthCheck.status) lastCheckStatus

/-- One alert handler whose external delivery fails. -/
def demoFailingHandler : AlertHandler := ⟨false⟩

/-- A configuration with a single (failing) alert handler and no
per-service overrides. -/
def demoConfig : Config := ⟨"dc1", 60, [], [("stdout.default", demoFailingHandler)], []⟩

/-- Watch options for the service `redis` with no tag. -/
def demoOpts : WatchOptions := ⟨"node1", "redis", "", demoConfig, fun _ => .error ()⟩

/-- A proposed alert for `redis` turning critical. -/
def demoUpdate : AlertState := ⟨"critical", "", "", "", 0, "", "redis is now critical", ""⟩

/-- The alert state `tryAlert` writes before sleeping when the alert
key was absent: freshly seeded, update applied, `update_index` 1. -/
def demoReread : AlertState :=
  ⟨"critical", "node1", "redis", "", 1, "passing", "redis is now critical", ""⟩

/-- A gate environment: alert key initially absent, pre-sleep put
succeeds, and the re-read returns exactly the state written before the
sleep (no concurrent proposal during the quiescence sleep). -/
def demoEnv : AlertKVEnv := ⟨.ok none, true, .ok (some demoReread)⟩

/-- The state written back after emission: `last_alerted` advanced to
the proposed status, same `update_index`. -/
def demoPut2 : AlertState :=
  ⟨"critical", "node1", "redis", "", 1, "critical", "redis is now critical", ""⟩

/-- Watch options for the node `node1` (node mode: empty service). -/
def demoNodeOpts : WatchOptions := ⟨"node1", "", "", demoConfig, fun _ => .error ()⟩

/-- A non-service health check on `node1` that is critical. -/
def demoCheck : HealthCheck := ⟨"node1", "chk1", "serfHealth", "critical", "", "", "out"⟩

/-- The proposal `watchStep` hands to the gate in the demo node
scenario (checks `[demoCheck]`, empty cache, previous aggregate
`passing`). -/
def demoProposal : AlertState :=
  ⟨"critical", "", "", "", 0, "",
   "[dc1] node node1 is now critical",
   "Failing checks:\n=> (check) serfHealth:\nout"⟩

/-- An alert state already at `update_index` 5 stored at the alert key. -/
def demoStored : AlertState := ⟨"passing", "node1", "", "", 5, "passing", "", ""⟩

/-- A re-read state whose `update_index` (99) differs from the
remembered one, so the gate treats the proposal as superseded. -/
def demoSuperseded : AlertState := ⟨"critical", "node1", "", "", 99, "passing", "", ""⟩

/-- A gate environment in which the post-sleep re-read shows a newer
proposal: the gate must not emit. -/
def demoSupersededEnv : AlertKVEnv := ⟨.ok (some demoStored), true, .ok (some demoSuperseded)⟩

/-- A service health check for `redis` on `node1`. -/
def demoSvcCheck : HealthCheck :=
  ⟨"node1", "chk2", "redis-check", "critical", "redis", "redis", "out2"⟩

/-- The catalog entry of `node1`: `redis` registered with tags
`alpha` and `beta`. -/
def demoCatalogNode : CatalogNode := ⟨[("redis", ["alpha", "beta"])]⟩

/-- Watch options for service `redis` filtered to tag `beta`. -/
def demoTagOpts : WatchOptions :=
  ⟨"node1", "redis", "beta", demoConfig,
   fun n => if n = "node1" then .ok demoCatalogNode else .error ()⟩

lemma kvLookup_upsert {α : Type} (m : List (String × α)) (k k' : String) (v : α) :
    kvLookup (upsert m k v) k' = if k = k' then some v else kvLookup m k' := by
  induction m with
  | nil => rfl
  | cons a rest ih =>
    obtain ⟨ka, va⟩ := a
    by_cases hak : ka = k
    · subst hak
      rw [show upsert ((ka, va) :: rest) ka v = (ka, v) :: rest from by
        simp [upsert]]
      by_cases hk' : ka = k'
      · simp [kvLookup, hk']
      · simp [kvLookup, hk']
    · rw [show upsert ((ka, va) :: rest) k v = (ka, va) :: upsert rest k v from by
        simp [upsert, hak]]
      by_cases hk' : ka = k'
      · subst hk'
        rw [show kvLookup ((ka, va) :: upsert rest k v) ka = some va from by
          simp [kvLookup]]
        rw [if_neg (fun h => hak h.symm)]
        simp [kvLookup]
      · rw [show kvLookup ((ka, va) :: upsert rest k v) k' = kvLookup (upsert rest k v) k' from by
          simp [kvLookup, hk']]
        rw [ih]
        by_cases hkk' : k = k'
        · simp [hkk']
        · simp [hkk', kvLookup, hk']

lemma kvLookup_upsert_mono {α : Type} (m : List (String × α)) (k s : String) (v : α)
    (h : kvLookup m s ≠ none) : kvLookup (upsert m k v) s ≠ none := by
  rw [kvLookup_upsert]
  by_cases hk : k = s
  · simp [hk]
  · rwa [if_neg hk]

lemma containsStr_append_left (l l' : List String) (e : String)
    (h : containsStr l e = true) : containsStr (l ++ l') e = true := by
  induction l with
  | nil => simp [containsStr] at h
  | cons a rest ih =>
    rw [List.cons_append]
    unfold containsStr at h ⊢
    by_cases ha : a = e
    · rw [if_pos ha]
    · rw [if_neg ha] at h ⊢
      exact ih h

lemma foldl_success_eq_all {α : Type} (P : α → Bool) :
    ∀ (l : List α) (b : Bool),
      l.foldl (fun success u => if P u then success else false) b = (b && l.all P) := by
  intro l
  induction l with
  | nil => intro b; simp
  | cons x xs ih =>
    intro b
    by_cases h : P x = true
    · simp only [List.foldl_cons]
      rw [if_pos h, ih, List.all_cons, h, Bool.true_and]
    · simp only [List.foldl_cons]
      rw [if_neg h, ih, List.all_cons]
      have hfalse : P x = false := by rwa [Bool.not_eq_true] at h
      simp [hfalse]

lemma severityRank_of_other {s : String} (hw : s ≠ healthWarning) (hc : s ≠ healthCritical) :
    severityRank s = 0 := by
  unfold severityRank; rw [if_neg hc, if_neg hw]

lemma severityRank_le_two (s : String) : severityRank s ≤ 2 := by
  unfold severityRank
  split
  · omega
  · split <;> omega

lemma statusOfRank_rank (r : Nat) (hr : r ≤ 2) : severityRank (statusOfRank r) = r := by
  unfold statusOfRank severityRank
  by_cases h2 : 2 ≤ r
  · rw [if_pos h2, if_pos rfl]; omega
  · rw [if_neg h2]
    by_cases h1 : r = 1
    · rw [if_pos h1, if_neg (by decide), if_pos rfl]; omega
    · rw [if_neg h1, if_neg (by decide), if_neg (by decide)]; omega

lemma computeHealth_fold_rank (checks : List (String × String)) :
    ∀ health : String,
      health = healthPassing ∨ health = healthWarning ∨ health = healthCritical →
      checks.foldl
        (fun health kv =>
          if kv.2 = healthWarning then
            (if health ≠ healthCritical then healthWarning else health)
          else if kv.2 = healthCritical then healthCritical
          else health)
        health = statusOfRank (max (severityRank health) (maxSeverity checks)) := by
  induction checks with
  | nil =>
    intro health hh
    rcases hh with h | h | h <;> subst h <;> decide
  | cons kv rest ih =>
    intro health hh
    have hstep :
        (if kv.2 = healthWarning then
            (if health ≠ healthCritical then healthWarning else health)
          else if kv.2 = healthCritical then healthCritical
          else health) = statusOfRank (max (severityRank health) (severityRank kv.2)) := by
      by_cases hw : kv.2 = healthWarning
      · rw [if_pos hw, hw]
        rcases hh with h | h | h <;> subst h <;> decide
      · rw [if_neg hw]
        by_cases hc : kv.2 = healthCritical
        · rw [if_pos hc, hc]
          rcases hh with h | h | h <;> subst h <;> decide
        · rw [if_neg hc, severityRank_of_other hw hc]
          rcases hh with h | h | h <;> subst h <;> decide
    have hmem : ∀ r : Nat, statusOfRank r = healthPassing ∨
        statusOfRank r = healthWarning ∨ statusOfRank r = healthCritical := by
      intro r
      unfold statusOfRank
      split
      · right; right; rfl
      · split
        · right; left; rfl
        · left; rfl
    have hms : maxSeverity (kv :: rest) = max (severityRank kv.2) (maxSeverity rest) := rfl
    rw [List.foldl_cons, hstep, ih _ (hmem _), hms]
    congr 1
    rw [statusOfRank_rank _ (by
      have h1 := severityRank_le_two health
      have h2 := severityRank_le_two kv.2
      omega)]
    exact Nat.max_assoc _ _ _

lemma maxSeverity_append (xs ys : List (String × String)) :
    maxSeverity (xs ++ ys) = max (maxSeverity xs) (maxSeverity ys) := by
  induction xs with
  | nil => simp [maxSeverity]
  | cons kv rest ih =>
    have h1 : maxSeverity ((kv :: rest) ++ ys) = max (severityRank kv.2) (maxSeverity (rest ++ ys)) := rfl
    have h2 : maxSeverity (kv :: rest) = max (severityRank kv.2) (maxSeverity rest) := rfl
    rw [h1, h2, ih, Nat.max_assoc]

lemma maxSeverity_zero (checks : List (String × String))
    (h : ∀ kv ∈ checks, severityRank kv.2 = 0) : maxSeverity checks = 0 := by
  induction checks with
  | nil => rfl
  | cons kv rest ih =>
    have h1 : maxSeverity (kv :: rest) = max (severityRank kv.2) (maxSeverity rest) := rfl
    rw [h1, h kv (by simp), ih (fun kv hkv => h kv (by simp [hkv]))]
    rfl

lemma computeHealth_rank (checks : List (String × String)) :
    computeHealth checks = statusOfRank (maxSeverity checks) := by
  unfold computeHealth
  rw [computeHealth_fold_rank checks healthPassing (Or.inl rfl)]
  congr 1
  have h0 : severityRank healthPassing = 0 := by decide
  rw [h0, Nat.zero_max]

/-- C7: `computeHealth` returns the status of maximal severity under
the order `passing < warning < critical`, returns `passing` on the
empty map, adding a `critical` entry yields `critical`, and adding a
`warning` entry to an all-passing map yields `warning`. -/
theorem computeHealth_max_severity (checks : List (String × String)) (k : String) :
    computeHealth checks = statusOfRank (maxSeverity checks)
    ∧ computeHealth [] = healthPassing
    ∧ computeHealth (checks ++ [(k, healthCritical)]) = healthCritical
    ∧ ((∀ kv ∈ checks, kv.2 = healthPassing) →
        computeHealth (checks ++ [(k, healthWarning)]) = healthWarning) := by
  refine ⟨computeHealth_rank checks, by decide, ?_, ?_⟩
  · rw [computeHealth_rank, maxSeverity_append]
    have h2 : maxSeverity [(k, healthCritical)] = 2 := by
      unfold maxSeverity
      simp [show severityRank healthCritical = 2 by decide]
    rw [h2]
    unfold statusOfRank
    rw [if_pos (Nat.le_max_right _ 2)]
  · intro hall
    rw [computeHealth_rank, maxSeverity_append]
    have h0 : maxSeverity checks = 0 :=
      maxSeverity_zero checks (fun kv hkv => by rw [hall kv hkv]; decide)
    have h1 : maxSeverity [(k, healthWarning)] = 1 := by
      unfold maxSeverity
      simp [show severityRank healthWarning = 1 by decide]
    rw [h0, h1]
    decide

/-- Witness for C7: adding a warning to an all-passing map. -/
theorem computeHealth_max_severity_witness :
    computeHealth ([("node1/a", healthPassing)] ++ [("node1/b", healthWarning)]) = healthWarning :=
  (computeHealth_max_severity [("node1/a", healthPassing)] "node1/b").2.2.2
    (by intro kv hkv; simp at hkv; rw [hkv])

/-- C10: statuses other than exactly `warning` and `critical` never
raise the aggregate: a map containing only such statuses aggregates to
`passing`. -/
theorem computeHealth_unknown_passing (checks : List (String × String))
    (h : ∀ kv ∈ checks, kv.2 ≠ healthWarning ∧ kv.2 ≠ healthCritical) :
    computeHealth checks = healthPassing := by
  rw [computeHealth_rank,
    maxSeverity_zero checks (fun kv hkv => severityRank_of_other (h kv hkv).1 (h kv hkv).2)]
  decide

/-- Witness for C10 on a map of unknown and empty statuses. -/
theorem computeHealth_unknown_passing_witness :
    computeHealth [("node1/a", "unknown"), ("node1/b", "")] = healthPassing :=
  computeHealth_unknown_passing [("node1/a", "unknown"), ("node1/b", "")]
    (by intro kv hkv; simp at hkv; rcases hkv with h | h <;> rw [h] <;> exact ⟨by decide, by decide⟩)

lemma proposalState_updateIndex (update : AlertState) (opts : WatchOptions)
    (stored : Option AlertState) :
    (proposalState update opts stored).updateIndex =
      (stored.map AlertState.updateIndex).getD 0 + 1 := by
  cases stored <;> rfl

lemma tryAlert_get1_error (update : AlertState) (opts : WatchOptions)
    (e : Unit) (p1 : Bool) (g2 : Except Unit (Option AlertState)) :
    tryAlert update opts ⟨.error e, p1, g2⟩ = ⟨[], [], false⟩ := rfl

lemma tryAlert_put1_false (update : AlertState) (opts : WatchOptions)
    (stored : Option AlertState) (g2 : Except Unit (Option AlertState)) :
    tryAlert update opts ⟨.ok stored, false, g2⟩ =
      ⟨[proposalState update opts stored], [], false⟩ := rfl

lemma tryAlert_get2_error (update : AlertState) (opts : WatchOptions)
    (stored : Option AlertState) (e : Unit) :
    tryAlert update opts ⟨.ok stored, true, .error e⟩ =
      ⟨[proposalState update opts stored], [], false⟩ := rfl

lemma tryAlert_get2_none (update : AlertState) (opts : WatchOptions)
    (stored : Option AlertState) :
    tryAlert update opts ⟨.ok stored, true, .ok none⟩ =
      ⟨[proposalState update opts stored], [], false⟩ := rfl

lemma tryAlert_get2_some (update : AlertState) (opts : WatchOptions)
    (stored : Option AlertState) (reread : AlertState) :
    tryAlert update opts ⟨.ok stored, true, .ok (some reread)⟩ =
      if reread.updateIndex = (proposalState update opts stored).updateIndex
          ∧ update.status ≠ reread.lastAlerted then
        ⟨[proposalState update opts stored, { reread with lastAlerted := update.status }],
         (opts.config.serviceHandlers opts.service).map (fun h => (h, reread)), true⟩
      else ⟨[proposalState update opts stored], [], false⟩ := rfl

/-- C1: after the quiescence sleep, `tryAlert` re-reads the alert
state and invokes the configured sinks if and only if the re-read state
is present, its `update_index` equals the index remembered from the
pre-sleep write, and the proposed status differs from the re-read
`last_alerted`; when the sinks are invoked, `last_alerted` is set to
the proposed status and the state is written back to the KV store. -/
theorem tryAlert_emits_iff (update : AlertState) (opts : WatchOptions) (env : AlertKVEnv)
    (stored : Option AlertState)
    (hget : env.get1 = .ok stored) (hput : env.put1Ok = true) :
    ((tryAlert update opts env).emitted = true ↔
      ∃ reread, env.get2 = .ok (some reread) ∧
        reread.updateIndex = (proposalState update opts stored).updateIndex ∧
        update.status ≠ reread.lastAlerted)
    ∧ (∀ reread, env.get2 = .ok (some reread) →
        (tryAlert update opts env).emitted = true →
        (tryAlert update opts env).emissions =
          (opts.config.serviceHandlers opts.service).map (fun h => (h, reread))
        ∧ (tryAlert update opts env).puts =
            [proposalState update opts stored, { reread with lastAlerted := update.status }]) := by
  obtain ⟨g1, p1, g2⟩ := env
  simp only at hget hput
  subst hget
  subst hput
  cases g2 with
  | error e => rw [tryAlert_get2_error]; simp
  | ok o =>
    cases o with
    | none => rw [tryAlert_get2_none]; simp
    | some reread =>
      rw [tryAlert_get2_some]
      by_cases hcond : reread.updateIndex = (proposalState update opts stored).updateIndex
          ∧ update.status ≠ reread.lastAlerted
      · rw [if_pos hcond]
        refine ⟨⟨fun _ => ⟨reread, rfl, hcond.1, hcond.2⟩, fun _ => rfl⟩, ?_⟩
        intro r hr _
        obtain rfl : reread = r := by injection hr with h; injection h
        exact ⟨rfl, rfl⟩
      · rw [if_neg hcond]
        refine ⟨⟨fun h => by simp at h, ?_⟩, ?_⟩
        · rintro ⟨r, hr, hidx, hne⟩
          obtain rfl : reread = r := by injection hr with h; injection h
          exact absurd ⟨hidx, hne⟩ hcond
        · intro r hr htrue
          simp at htrue

/-- Witness for C1: a concrete gate run (key initially absent,
undisturbed sleep) in which the sinks fire. -/
theorem tryAlert_emits_iff_witness :
    demoEnv.get1 = Except.ok none ∧ demoEnv.put1Ok = true ∧
      (tryAlert demoUpdate demoOpts demoEnv).emitted = true :=
  ⟨rfl, rfl,
    (tryAlert_emits_iff demoUpdate demoOpts demoEnv none rfl rfl).1.mpr
      ⟨demoReread, rfl, by decide, by decide⟩⟩

/-- C2 counterexample: a concrete `tryAlert` run in which the gate
emits performs two lock-held writes whose `update_index` values are
equal — the post-emission write is not strictly larger. -/
theorem tryAlert_second_write_same_index_cex :
    (tryAlert demoUpdate demoOpts demoEnv).emitted = true
    ∧ (tryAlert demoUpdate demoOpts demoEnv).puts = [demoReread, demoPut2]
    ∧ ¬ demoReread.updateIndex < demoPut2.updateIndex := by decide

/-- C2 (amended): only the pre-sleep proposal write of `tryAlert`
increments `update_index` (by one over the state it read, or over 0
when the key was absent); the post-sleep write that records
`last_alerted` carries the SAME `update_index` as the pre-sleep write,
so `update_index` is non-decreasing, not strictly increasing, across
the two lock-held writes of one gate attempt. -/
theorem tryAlert_write_indices (update : AlertState) (opts : WatchOptions)
    (env : AlertKVEnv) (stored : Option AlertState)
    (hget : env.get1 = .ok stored) :
    (∀ s1, (tryAlert update opts env).puts.head? = some s1 →
      s1.updateIndex = (stored.map AlertState.updateIndex).getD 0 + 1)
    ∧ (∀ s1 s2, (tryAlert update opts env).puts = [s1, s2] →
        s2.updateIndex = s1.updateIndex ∧ s2.lastAlerted = update.status) := by
  obtain ⟨g1, p1, g2⟩ := env
  simp only at hget
  subst hget
  have hidx := proposalState_updateIndex update opts stored
  cases p1 with
  | false =>
    rw [tryAlert_put1_false]
    constructor
    · intro s1 hs1
      obtain rfl : proposalState update opts stored = s1 := by injection hs1
      exact hidx
    · intro s1 s2 hputs
      injection hputs with h1 h2
      injection h2
  | true =>
    cases g2 with
    | error e =>
      rw [tryAlert_get2_error]
      constructor
      · intro s1 hs1
        obtain rfl : proposalState update opts stored = s1 := by injection hs1
        exact hidx
      · intro s1 s2 hputs
        injection hputs with h1 h2
        injection h2
    | ok o =>
      cases o with
      | none =>
        rw [tryAlert_get2_none]
        constructor
        · intro s1 hs1
          obtain rfl : proposalState update opts stored = s1 := by injection hs1
          exact hidx
        · intro s1 s2 hputs
          injection hputs with h1 h2
          injection h2
      | some reread =>
        rw [tryAlert_get2_some]
        by_cases hcond : reread.updateIndex = (proposalState update opts stored).updateIndex
            ∧ update.status ≠ reread.lastAlerted
        · rw [if_pos hcond]
          constructor
          · intro s1 hs1
            obtain rfl : proposalState update opts stored = s1 := by injection hs1
            exact hidx
          · intro s1 s2 hputs
            injection hputs with h1 h2
            injection h2 with h2 h3
            subst h1
            subst h2
            exact ⟨hcond.1, rfl⟩
        · rw [if_neg hcond]
          constructor
          · intro s1 hs1
            obtain rfl : proposalState update opts stored = s1 := by injection hs1
            exact hidx
          · intro s1 s2 hputs
            injection hputs with h1 h2
            injection h2

/-- Witness for the amended C2 at a concrete gate run with two
writes. -/
theorem tryAlert_write_indices_witness :
    demoEnv.get1 = Except.ok none ∧
      demoPut2.updateIndex = demoReread.updateIndex ∧ demoPut2.lastAlerted = demoUpdate.status :=
  ⟨rfl, (tryAlert_write_indices demoUpdate demoOpts demoEnv none rfl).2
    demoReread demoPut2 (by decide)⟩

/-- C3 counterexample: a run in which the only configured sink fails
(`succeeds = false`) and the gate still advances and persists
`last_alerted` to the proposed status. -/
theorem tryAlert_sink_failure_cex :
    (tryAlert demoUpdate demoOpts demoEnv).emissions.map (fun e => e.1.succeeds) = [false]
    ∧ (tryAlert demoUpdate demoOpts demoEnv).puts.getLast? = some demoPut2
    ∧ demoPut2.lastAlerted = demoUpdate.status := by decide

/-- C3 (amended): sink failures are not observable by `tryAlert` — the
handler interface returns nothing, failures being logged and retried
inside each handler — so whenever the gate emits, `last_alerted` is
advanced to the proposed status and written back regardless of whether
any sink delivery succeeded. -/
theorem tryAlert_advances_regardless_of_sink (update : AlertState) (opts : WatchOptions)
    (env : AlertKVEnv) (hemit : (tryAlert update opts env).emitted = true) :
    ∃ reread, env.get2 = .ok (some reread) ∧
      (tryAlert update opts env).puts.getLast? =
        some { reread with lastAlerted := update.status } := by
  obtain ⟨g1, p1, g2⟩ := env
  cases g1 with
  | error e => rw [tryAlert_get1_error] at hemit ⊢; simp at hemit
  | ok stored =>
    cases p1 with
    | false => rw [tryAlert_put1_false] at hemit ⊢; simp at hemit
    | true =>
      cases g2 with
      | error e => rw [tryAlert_get2_error] at hemit ⊢; simp at hemit
      | ok o =>
        cases o with
        | none => rw [tryAlert_get2_none] at hemit ⊢; simp at hemit
        | some reread =>
          rw [tryAlert_get2_some] at hemit ⊢
          by_cases hcond : reread.updateIndex = (proposalState update opts stored).updateIndex
              ∧ update.status ≠ reread.lastAlerted
          · rw [if_pos hcond]
            exact ⟨reread, rfl, rfl⟩
          · rw [if_neg hcond] at hemit
            simp at hemit

/-- Witness for the amended C3 at a concrete emitting run. -/
theorem tryAlert_advances_regardless_of_sink_witness :
    (tryAlert demoUpdate demoOpts demoEnv).emitted = true ∧
      ∃ reread, demoEnv.get2 = Except.ok (some reread) ∧
        (tryAlert demoUpdate demoOpts demoEnv).puts.getLast? =
          some { reread with lastAlerted := demoUpdate.status } :=
  ⟨by decide, tryAlert_advances_regardless_of_sink demoUpdate demoOpts demoEnv (by decide)⟩

lemma watchStep_eval (opts : WatchOptions) (checks : List HealthCheck)
    (lastCheckStatus : List (String × String)) (lastAlertStatus : String)
    (putOk : String → Bool) :
    watchStep opts checks lastCheckStatus lastAlertStatus putOk =
      (if (watchUpdates opts checks lastCheckStatus).length > 0 then
        if (watchUpdates opts checks lastCheckStatus).all
            (fun u => updateCheckState u.2 putOk) then
          if lastAlertStatus ≠
              computeHealth (mergeUpdates (watchUpdates opts checks lastCheckStatus) lastCheckStatus) then
            ⟨mergeUpdates (watchUpdates opts checks lastCheckStatus) lastCheckStatus,
             computeHealth (mergeUpdates (watchUpdates opts checks lastCheckStatus) lastCheckStatus),
             [{ status := computeHealth (mergeUpdates (watchUpdates opts checks lastCheckStatus) lastCheckStatus),
                node := "", service := "", tag := "", updateIndex := 0, lastAlerted := "",
                details := if opts.service ≠ "" then serviceDetails checks else nodeDetails checks,
                message := "[" ++ opts.config.consulDatacenter ++ "] "
                  ++ (if opts.service ≠ "" then
                        ServiceWatch ++ " " ++ opts.service
                          ++ (if opts.tag ≠ "" then " (tag: " ++ opts.tag ++ ")" else "")
                      else NodeWatch ++ " " ++ opts.node)
                  ++ " is now "
                  ++ computeHealth (mergeUpdates (watchUpdates opts checks lastCheckStatus) lastCheckStatus) }]⟩
          else ⟨mergeUpdates (watchUpdates opts checks lastCheckStatus) lastCheckStatus,
                lastAlertStatus, []⟩
        else ⟨lastCheckStatus, lastAlertStatus, []⟩
       else ⟨lastCheckStatus, lastAlertStatus, []⟩) := by
  by_cases hsvc : opts.service = ""
  · simp only [watchStep, watchUpdates, mergeUpdates, hsvc, ne_eq, not_true_eq_false,
      if_false, ite_false, foldl_success_eq_all, Bool.true_and]
    rfl
  · simp only [watchStep, watchUpdates, mergeUpdates, ne_eq, hsvc, not_false_eq_true,
      if_true, ite_true, foldl_success_eq_all, Bool.true_and]
    have hmode : ¬ (ServiceWatch = NodeWatch) := by decide
    simp only [if_neg hmode]

/-- C8: in a watch iteration, if any `CheckState` write to the KV
store fails, the in-memory last-known map is left unchanged for the
cycle and no alert proposal is made; the map is committed with the
cycle's diffs when all writes succeed. -/
theorem watchStep_failed_write_aborts (opts : WatchOptions) (checks : List HealthCheck)
    (lastCheckStatus : List (String × String)) (lastAlertStatus : String)
    (putOk : String → Bool) :
    ((∃ u ∈ watchUpdates opts checks lastCheckStatus, updateCheckState u.2 putOk = false) →
      watchStep opts checks lastCheckStatus lastAlertStatus putOk =
        ⟨lastCheckStatus, lastAlertStatus, []⟩)
    ∧ ((∀ u ∈ watchUpdates opts checks lastCheckStatus, updateCheckState u.2 putOk = true) →
      (watchStep opts checks lastCheckStatus lastAlertStatus putOk).lastCheckStatus =
        mergeUpdates (watchUpdates opts checks lastCheckStatus) lastCheckStatus) := by
  rw [watchStep_eval]
  constructor
  · rintro ⟨u, hu, hfail⟩
    have hall : (watchUpdates opts checks lastCheckStatus).all
        (fun u => updateCheckState u.2 putOk) = false := by
      rcases Bool.eq_false_or_eq_true
          ((watchUpdates opts checks lastCheckStatus).all (fun u => updateCheckState u.2 putOk))
        with h | h
      · have := List.all_eq_true.mp h u hu
        simp only [hfail] at this
        exact absurd this (by decide)
      · exact h
    rw [hall]
    simp
  · intro hfor
    have hall : (watchUpdates opts checks lastCheckStatus).all
        (fun u => updateCheckState u.2 putOk) = true :=
      List.all_eq_true.mpr (fun u hu => hfor u hu)
    rw [hall]
    by_cases hlen : (watchUpdates opts checks lastCheckStatus).length > 0
    · rw [if_pos hlen]
      by_cases hst : lastAlertStatus =
          computeHealth (mergeUpdates (watchUpdates opts checks lastCheckStatus) lastCheckStatus)
      · simp [hst]
      · simp [hst]
    · rw [if_neg hlen]
      have hnil : watchUpdates opts checks lastCheckStatus = [] := by
        cases hu : watchUpdates opts checks lastCheckStatus with
        | nil => rfl
        | cons a l => rw [hu] at hlen; simp at hlen
      rw [hnil]
      rfl

/-- Witness for C8: a cycle whose single write fails aborts without
mutating the cache. -/
theorem watchStep_failed_write_aborts_witness :
    (∃ u ∈ watchUpdates demoNodeOpts [demoCheck] [],
      updateCheckState u.2 (fun _ => false) = false)
    ∧ watchStep demoNodeOpts [demoCheck] [] healthPassing (fun _ => false) =
        ⟨[], healthPassing, []⟩ :=
  ⟨by decide,
    (watchStep_failed_write_aborts demoNodeOpts [demoCheck] [] healthPassing
      (fun _ => false)).1 (by decide)⟩

/-- C4 counterexample: a watch iteration records `critical` as the
in-memory `lastAlertStatus` although its proposal, run against a gate
environment where a newer proposal superseded it, never emits. -/
theorem watchStep_records_before_gate_cex :
    (watchStep demoNodeOpts [demoCheck] [] healthPassing (fun _ => true)).lastAlertStatus
      = healthCritical
    ∧ (watchStep demoNodeOpts [demoCheck] [] healthPassing (fun _ => true)).proposals.map
        (fun a => (tryAlert a demoNodeOpts demoSupersededEnv).emitted) = [false] := by decide

/-- C4 (amended): the watch loop records the new aggregate status as
the in-memory `lastAlertStatus` at the moment the proposal is handed to
the gate — every proposal's status equals the status recorded in the
same iteration — not when the gate later emits. -/
theorem watchStep_records_at_handoff (opts : WatchOptions) (checks : List HealthCheck)
    (lastCheckStatus : List (String × String)) (lastAlertStatus : String)
    (putOk : String → Bool) :
    ∀ a ∈ (watchStep opts checks lastCheckStatus lastAlertStatus putOk).proposals,
      (watchStep opts checks lastCheckStatus lastAlertStatus putOk).lastAlertStatus = a.status := by
  rw [watchStep_eval]
  by_cases hlen : (watchUpdates opts checks lastCheckStatus).length > 0
  · rw [if_pos hlen]
    by_cases hall : (watchUpdates opts checks lastCheckStatus).all
        (fun u => updateCheckState u.2 putOk) = true
    · rw [if_pos hall]
      by_cases hst : lastAlertStatus =
          computeHealth (mergeUpdates (watchUpdates opts checks lastCheckStatus) lastCheckStatus)
      · rw [if_neg (by simpa using hst)]
        intro a ha
        simp at ha
      · rw [if_pos hst]
        intro a ha
        simp at ha
        rw [ha]
    · rw [if_neg (by simpa using hall)]
      intro a ha
      simp at ha
  · rw [if_neg hlen]
    intro a ha
    simp at ha

/-- Witness for the amended C4 at a concrete proposing iteration. -/
theorem watchStep_records_at_handoff_witness :
    (watchStep demoNodeOpts [demoCheck] [] healthPassing (fun _ => true)).lastAlertStatus
      = demoProposal.status :=
  watchStep_records_at_handoff demoNodeOpts [demoCheck] [] healthPassing (fun _ => true)
    demoProposal (by decide)

lemma diffNodeChecks_append (checks : List HealthCheck) (c : HealthCheck)
    (lastStatus : List (String × String)) (opts : WatchOptions) :
    diffNodeChecks (checks ++ [c]) lastStatus opts =
      (if c.serviceID = "" then
        match kvLookup lastStatus (opts.node ++ "/" ++ c.checkID) with
        | some old =>
          if old ≠ c.status then
            upsert (diffNodeChecks checks lastStatus opts)
              (opts.node ++ "/" ++ c.checkID) ⟨"", c⟩
          else diffNodeChecks checks lastStatus opts
        | none =>
          upsert (diffNodeChecks checks lastStatus opts)
            (opts.node ++ "/" ++ c.checkID) ⟨"", c⟩
      else diffNodeChecks checks lastStatus opts) := by
  simp only [diffNodeChecks, List.foldl_append, List.foldl_cons, List.foldl_nil]

lemma diffNodeChecks_mem (lastStatus : List (String × String)) (opts : WatchOptions) :
    ∀ (checks : List HealthCheck) (k : String),
      kvLookup (diffNodeChecks checks lastStatus opts) k ≠ none ↔
        ∃ c ∈ checks, c.serviceID = "" ∧ opts.node ++ "/" ++ c.checkID = k ∧
          (kvLookup lastStatus (opts.node ++ "/" ++ c.checkID) = none ∨
           ∃ old, kvLookup lastStatus (opts.node ++ "/" ++ c.checkID) = some old ∧
             old ≠ c.status) := by
  intro checks
  induction checks using List.reverseRecOn with
  | nil => intro k; simp [diffNodeChecks, kvLookup]
  | append_singleton xs c ih =>
    intro k
    rw [diffNodeChecks_append]
    by_cases hsid : c.serviceID = ""
    · rw [if_pos hsid]
      cases hls : kvLookup lastStatus (opts.node ++ "/" ++ c.checkID) with
      | none =>
        change kvLookup (upsert _ _ _) k ≠ none ↔ _
        rw [kvLookup_upsert]
        by_cases hk : opts.node ++ "/" ++ c.checkID = k
        · rw [if_pos hk]
          constructor
          · intro _
            exact ⟨c, by simp, hsid, hk, Or.inl hls⟩
          · intro _
            simp
        · rw [if_neg hk, ih k]
          constructor
          · rintro ⟨c', hc', rest⟩
            exact ⟨c', List.mem_append_left _ hc', rest⟩
          · rintro ⟨c', hc', h1, h2, h3⟩
            rcases List.mem_append.mp hc' with h | h
            · exact ⟨c', h, h1, h2, h3⟩
            · rw [List.mem_singleton] at h
              subst h
              exact absurd h2 hk
      | some old =>
        change kvLookup (if old ≠ c.status then _ else _) k ≠ none ↔ _
        by_cases hst : old = c.status
        · rw [if_neg (by simpa using hst), ih k]
          constructor
          · rintro ⟨c', hc', rest⟩
            exact ⟨c', List.mem_append_left _ hc', rest⟩
          · rintro ⟨c', hc', h1, h2, h3⟩
            rcases List.mem_append.mp hc' with h | h
            · exact ⟨c', h, h1, h2, h3⟩
            · rw [List.mem_singleton] at h
              subst h
              rcases h3 with h3 | ⟨old', hold', hne⟩
              · rw [hls] at h3; exact absurd h3 (by simp)
              · rw [hls] at hold'
                injection hold' with hold'
                subst hold'
                exact absurd hst hne
        · rw [if_pos (by simpa using hst), kvLookup_upsert]
          by_cases hk : opts.node ++ "/" ++ c.checkID = k
          · rw [if_pos hk]
            constructor
            · intro _
              exact ⟨c, by simp, hsid, hk, Or.inr ⟨old, hls, hst⟩⟩
            · intro _
              simp
          · rw [if_neg hk, ih k]
            constructor
            · rintro ⟨c', hc', rest⟩
              exact ⟨c', List.mem_append_left _ hc', rest⟩
            · rintro ⟨c', hc', h1, h2, h3⟩
              rcases List.mem_append.mp hc' with h | h
              · exact ⟨c', h, h1, h2, h3⟩
              · rw [List.mem_singleton] at h
                subst h
                exact absurd h2 hk
    · rw [if_neg hsid, ih k]
      constructor
      · rintro ⟨c', hc', rest⟩
        exact ⟨c', List.mem_append_left _ hc', rest⟩
      · rintro ⟨c', hc', h1, h2, h3⟩
        rcases List.mem_append.mp hc' with h | h
        · exact ⟨c', h, h1, h2, h3⟩
        · rw [List.mem_singleton] at h
          subst h
          exact absurd h1 hsid

lemma diffNodeChecks_values (lastStatus : List (String × String)) (opts : WatchOptions) :
    ∀ (checks : List HealthCheck) (k : String) (u : CheckUpdate),
      kvLookup (diffNodeChecks checks lastStatus opts) k = some u →
        u.healthCheck.serviceID = "" := by
  intro checks
  induction checks using List.reverseRecOn with
  | nil => intro k u h; simp [diffNodeChecks, kvLookup] at h
  | append_singleton xs c ih =>
    intro k u h
    rw [diffNodeChecks_append] at h
    by_cases hsid : c.serviceID = ""
    · rw [if_pos hsid] at h
      cases hls : kvLookup lastStatus (opts.node ++ "/" ++ c.checkID) with
      | none =>
        rw [hls] at h
        change kvLookup (upsert _ _ _) k = some u at h
        rw [kvLookup_upsert] at h
        by_cases hk : opts.node ++ "/" ++ c.checkID = k
        · rw [if_pos hk] at h
          injection h with h
          rw [← h]
          exact hsid
        · rw [if_neg hk] at h
          exact ih k u h
      | some old =>
        rw [hls] at h
        change kvLookup (if old ≠ c.status then _ else _) k = some u at h
        by_cases hst : old = c.status
        · rw [if_neg (by simpa using hst)] at h
          exact ih k u h
        · rw [if_pos (by simpa using hst), kvLookup_upsert] at h
          by_cases hk : opts.node ++ "/" ++ c.checkID = k
          · rw [if_pos hk] at h
            injection h with h
            rw [← h]
            exact hsid
          · rw [if_neg hk] at h
            exact ih k u h
    · rw [if_neg hsid] at h
      exact ih k u h

/-- C6: `diffNodeChecks` includes only checks with empty `service_id`,
and a key is present in its output iff some such check hashes to it and
is either absent from the last-known map or differs from its last-known
status. -/
theorem diffNodeChecks_includes_iff (checks : List HealthCheck)
    (lastStatus : List (String × String)) (opts : WatchOptions) :
    (∀ k : String,
      kvLookup (diffNodeChecks checks lastStatus opts) k ≠ none ↔
        ∃ c ∈ checks, c.serviceID = "" ∧ opts.node ++ "/" ++ c.checkID = k ∧
          (kvLookup lastStatus (opts.node ++ "/" ++ c.checkID) = none ∨
           ∃ old, kvLookup lastStatus (opts.node ++ "/" ++ c.checkID) = some old ∧
             old ≠ c.status))
    ∧ (∀ (k : String) (u : CheckUpdate),
        kvLookup (diffNodeChecks checks lastStatus opts) k = some u →
          u.healthCheck.serviceID = "") :=
  ⟨diffNodeChecks_mem lastStatus opts checks, diffNodeChecks_values lastStatus opts checks⟩

/-- Witness for C6 at a concrete new check. -/
theorem diffNodeChecks_includes_iff_witness :
    kvLookup (diffNodeChecks [demoCheck] [] demoNodeOpts) "node1/chk1" ≠ none
    ∧ ({ serviceTag := "", healthCheck := demoCheck } : CheckUpdate).healthCheck.serviceID = "" :=
  ⟨((diffNodeChecks_includes_iff [demoCheck] [] demoNodeOpts).1 "node1/chk1").mpr
      ⟨demoCheck, by decide, by decide, by decide, Or.inl (by decide)⟩,
   (diffNodeChecks_includes_iff [demoCheck] [] demoNodeOpts).2 "node1/chk1"
      ⟨"", demoCheck⟩ (by decide)⟩

lemma diffServiceChecks_append (checks : List HealthCheck) (c : HealthCheck)
    (lastStatus : List (String × String)) (opts : WatchOptions) :
    diffServiceChecks (checks ++ [c]) lastStatus opts =
      (match kvLookup lastStatus (c.node ++ "/" ++ c.checkID) with
       | some oldStatus =>
         if oldStatus ≠ c.status then
           if opts.tag ≠ "" then
             match opts.catalog c.node with
             | .error _ => diffServiceChecks checks lastStatus opts
             | .ok node =>
               match kvLookup node.services opts.service with
               | some nodeServiceTags =>
                 if containsStr nodeServiceTags opts.tag then
                   upsert (diffServiceChecks checks lastStatus opts)
                     (c.node ++ "/" ++ c.checkID) ⟨opts.tag, c⟩
                 else diffServiceChecks checks lastStatus opts
               | none => diffServiceChecks checks lastStatus opts
           else
             upsert (diffServiceChecks checks lastStatus opts)
               (c.node ++ "/" ++ c.checkID) ⟨"", c⟩
         else diffServiceChecks checks lastStatus opts
       | none =>
         upsert (diffServiceChecks checks lastStatus opts)
           (c.node ++ "/" ++ c.checkID) ⟨opts.tag, c⟩) := by
  simp only [diffServiceChecks, List.foldl_append, List.foldl_cons, List.foldl_nil]

lemma diffServiceChecks_mem (lastStatus : List (String × String)) (opts : WatchOptions)
    (htag : opts.tag ≠ "") :
    ∀ (checks : List HealthCheck) (k : String),
      kvLookup (diffServiceChecks checks lastStatus opts) k ≠ none ↔
        ∃ c ∈ checks, c.node ++ "/" ++ c.checkID = k ∧
          (kvLookup lastStatus (c.node ++ "/" ++ c.checkID) = none ∨
           (∃ old, kvLookup lastStatus (c.node ++ "/" ++ c.checkID) = some old ∧
              old ≠ c.status) ∧
           ∃ node, opts.catalog c.node = .ok node ∧
             ∃ tags, kvLookup node.services opts.service = some tags ∧
               containsStr tags opts.tag = true) := by
  intro checks
  induction checks using List.reverseRecOn with
  | nil => intro k; simp [diffServiceChecks, kvLookup]
  | append_singleton xs c ih =>
    have hskip : ∀ k : String,
        (kvLookup (diffServiceChecks xs lastStatus opts) k ≠ none ↔
          ∃ c' ∈ xs, c'.node ++ "/" ++ c'.checkID = k ∧
            (kvLookup lastStatus (c'.node ++ "/" ++ c'.checkID) = none ∨
             (∃ old, kvLookup lastStatus (c'.node ++ "/" ++ c'.checkID) = some old ∧
                old ≠ c'.status) ∧
             ∃ node, opts.catalog c'.node = .ok node ∧
               ∃ tags, kvLookup node.services opts.service = some tags ∧
                 containsStr tags opts.tag = true)) →
        ¬ (c.node ++ "/" ++ c.checkID = k ∧
            (kvLookup lastStatus (c.node ++ "/" ++ c.checkID) = none ∨
             (∃ old, kvLookup lastStatus (c.node ++ "/" ++ c.checkID) = some old ∧
                old ≠ c.status) ∧
             ∃ node, opts.catalog c.node = .ok node ∧
               ∃ tags, kvLookup node.services opts.service = some tags ∧
                 containsStr tags opts.tag = true)) →
        (kvLookup (diffServiceChecks xs lastStatus opts) k ≠ none ↔
          ∃ c' ∈ xs ++ [c], c'.node ++ "/" ++ c'.checkID = k ∧
            (kvLookup lastStatus (c'.node ++ "/" ++ c'.checkID) = none ∨
             (∃ old, kvLookup lastStatus (c'.node ++ "/" ++ c'.checkID) = some old ∧
                old ≠ c'.status) ∧
             ∃ node, opts.catalog c'.node = .ok node ∧
               ∃ tags, kvLookup node.services opts.service = some tags ∧
                 containsStr tags opts.tag = true)) := by
      intro k hih hnc
      rw [hih]
      constructor
      · rintro ⟨c', hc', rest⟩
        exact ⟨c', List.mem_append_left _ hc', rest⟩
      · rintro ⟨c', hc', rest⟩
        rcases List.mem_append.mp hc' with h | h
        · exact ⟨c', h, rest⟩
        · rw [List.mem_singleton] at h
          subst h
          exact absurd rest hnc
    intro k
    rw [diffServiceChecks_append]
    cases hls : kvLookup lastStatus (c.node ++ "/" ++ c.checkID) with
    | none =>
      change kvLookup (upsert _ _ _) k ≠ none ↔ _
      rw [kvLookup_upsert]
      by_cases hk : c.node ++ "/" ++ c.checkID = k
      · rw [if_pos hk]
        constructor
        · intro _
          exact ⟨c, by simp, hk, Or.inl hls⟩
        · intro _
          simp
      · rw [if_neg hk]
        refine hskip k (ih k) ?_
        rintro ⟨h1, _⟩
        exact hk h1
    | some old =>
      change kvLookup (if old ≠ c.status then _ else _) k ≠ none ↔ _
      by_cases hst : old = c.status
      · rw [if_neg (by simpa using hst)]
        refine hskip k (ih k) ?_
        rintro ⟨h1, h2 | ⟨⟨old', hold', hne⟩, _⟩⟩
        · rw [hls] at h2; exact absurd h2 (by simp)
        · rw [hls] at hold'
          injection hold' with hold'
          exact hne (hold' ▸ hst)
      · rw [if_pos (by simpa using hst), if_pos htag]
        cases hcat : opts.catalog c.node with
        | error e =>
          change kvLookup (diffServiceChecks xs lastStatus opts) k ≠ none ↔ _
          refine hskip k (ih k) ?_
          rintro ⟨h1, h2 | ⟨_, ⟨node, hnode, _⟩⟩⟩
          · rw [hls] at h2; exact absurd h2 (by simp)
          · rw [hcat] at hnode; exact absurd hnode (by simp)
        | ok node =>
          change kvLookup
              (match kvLookup node.services opts.service with
               | some nodeServiceTags =>
                 if containsStr nodeServiceTags opts.tag then
                   upsert (diffServiceChecks xs lastStatus opts)
                     (c.node ++ "/" ++ c.checkID) ⟨opts.tag, c⟩
                 else diffServiceChecks xs lastStatus opts
               | none => diffServiceChecks xs lastStatus opts) k ≠ none ↔ _
          cases hsvc : kvLookup node.services opts.service with
          | none =>
            change kvLookup (diffServiceChecks xs lastStatus opts) k ≠ none ↔ _
            refine hskip k (ih k) ?_
            rintro ⟨h1, h2 | ⟨_, ⟨node', hnode', ⟨tags, htags, _⟩⟩⟩⟩
            · rw [hls] at h2; exact absurd h2 (by simp)
            · rw [hcat] at hnode'
              injection hnode' with hnode'
              subst hnode'
              rw [hsvc] at htags
              exact absurd htags (by simp)
          | some tags =>
            change kvLookup (if containsStr tags opts.tag = true then _ else _) k ≠ none ↔ _
            by_cases hcont : containsStr tags opts.tag = true
            · rw [if_pos hcont, kvLookup_upsert]
              by_cases hk : c.node ++ "/" ++ c.checkID = k
              · rw [if_pos hk]
                constructor
                · intro _
                  exact ⟨c, by simp, hk,
                    Or.inr ⟨⟨old, hls, hst⟩, node, hcat, tags, hsvc, hcont⟩⟩
                · intro _
                  simp
              · rw [if_neg hk]
                refine hskip k (ih k) ?_
                rintro ⟨h1, _⟩
                exact hk h1
            · rw [if_neg hcont]
              refine hskip k (ih k) ?_
              rintro ⟨h1, h2 | ⟨_, ⟨node', hnode', ⟨tags', htags', hcont'⟩⟩⟩⟩
              · rw [hls] at h2; exact absurd h2 (by simp)
              · rw [hcat] at hnode'
                injection hnode' with hnode'
                subst hnode'
                rw [hsvc] at htags'
                injection htags' with htags'
                subst htags'
                exact hcont hcont'

lemma diffServiceChecks_values (lastStatus : List (String × String)) (opts : WatchOptions)
    (htag : opts.tag ≠ "") :
    ∀ (checks : List HealthCheck) (k : String) (u : CheckUpdate),
      kvLookup (diffServiceChecks checks lastStatus opts) k = some u →
        u.serviceTag = opts.tag := by
  intro checks
  induction checks using List.reverseRecOn with
  | nil => intro k u h; simp [diffServiceChecks, kvLookup] at h
  | append_singleton xs c ih =>
    intro k u h
    rw [diffServiceChecks_append] at h
    cases hls : kvLookup lastStatus (c.node ++ "/" ++ c.checkID) with
    | none =>
      rw [hls] at h
      change kvLookup (upsert _ _ _) k = some u at h
      rw [kvLookup_upsert] at h
      by_cases hk : c.node ++ "/" ++ c.checkID = k
      · rw [if_pos hk] at h
        injection h with h
        rw [← h]
      · rw [if_neg hk] at h
        exact ih k u h
    | some old =>
      rw [hls] at h
      change kvLookup (if old ≠ c.status then _ else _) k = some u at h
      by_cases hst : old = c.status
      · rw [if_neg (by simpa using hst)] at h
        exact ih k u h
      · rw [if_pos (by simpa using hst), if_pos htag] at h
        cases hcat : opts.catalog c.node with
        | error e =>
          rw [hcat] at h
          change kvLookup (diffServiceChecks xs lastStatus opts) k = some u at h
          exact ih k u h
        | ok node =>
          rw [hcat] at h
          change kvLookup
              (match kvLookup node.services opts.service with
               | some nodeServiceTags =>
                 if containsStr nodeServiceTags opts.tag then
                   upsert (diffServiceChecks xs lastStatus opts)
                     (c.node ++ "/" ++ c.checkID) ⟨opts.tag, c⟩
                 else diffServiceChecks xs lastStatus opts
               | none => diffServiceChecks xs lastStatus opts) k = some u at h
          cases hsvc : kvLookup node.services opts.service with
          | none =>
            rw [hsvc] at h
            change kvLookup (diffServiceChecks xs lastStatus opts) k = some u at h
            exact ih k u h
          | some tags =>
            rw [hsvc] at h
            change kvLookup (if containsStr tags opts.tag = true then _ else _) k = some u at h
            by_cases hcont : containsStr tags opts.tag = true
            · rw [if_pos hcont, kvLookup_upsert] at h
              by_cases hk : c.node ++ "/" ++ c.checkID = k
              · rw [if_pos hk] at h
                injection h with h
                rw [← h]
              · rw [if_neg hk] at h
                exact ih k u h
            · rw [if_neg hcont] at h
              exact ih k u h

/-- C5: for a tagged service watch, a check whose status changed
relative to the last-known map is included in the output of
`diffServiceChecks` iff the catalog lookup for its node succeeds and
the subject's tag is present on that node's registration of the
service; a check absent from the last-known map is included
unconditionally; and every output entry carries the subject's tag. -/
theorem diffServiceChecks_tag_filter (checks : List HealthCheck)
    (lastStatus : List (String × String)) (opts : WatchOptions) (htag : opts.tag ≠ "") :
    (∀ k : String,
      kvLookup (diffServiceChecks checks lastStatus opts) k ≠ none ↔
        ∃ c ∈ checks, c.node ++ "/" ++ c.checkID = k ∧
          (kvLookup lastStatus (c.node ++ "/" ++ c.checkID) = none ∨
           (∃ old, kvLookup lastStatus (c.node ++ "/" ++ c.checkID) = some old ∧
              old ≠ c.status) ∧
           ∃ node, opts.catalog c.node = .ok node ∧
             ∃ tags, kvLookup node.services opts.service = some tags ∧
               containsStr tags opts.tag = true))
    ∧ (∀ (k : String) (u : CheckUpdate),
        kvLookup (diffServiceChecks checks lastStatus opts) k = some u →
          u.serviceTag = opts.tag) :=
  ⟨diffServiceChecks_mem lastStatus opts htag checks,
   diffServiceChecks_values lastStatus opts htag checks⟩

/-- Witness for C5: a changed check passing the tag filter is
included, at concrete inputs. -/
theorem diffServiceChecks_tag_filter_witness :
    demoTagOpts.tag ≠ "" ∧
    kvLookup (diffServiceChecks [demoSvcCheck] [("node1/chk2", "passing")] demoTagOpts)
      "node1/chk2" ≠ none :=
  ⟨by decide,
    ((diffServiceChecks_tag_filter [demoSvcCheck] [("node1/chk2", "passing")] demoTagOpts
        (by decide)).1 "node1/chk2").mpr
      ⟨demoSvcCheck, by decide, by decide,
        Or.inr ⟨⟨"passing", by decide, by decide⟩,
          demoCatalogNode, rfl, ["alpha", "beta"], by decide, by decide⟩⟩⟩

lemma discoverServicesVisit_cases (config : Config) (acc : DiscoveryStepResult)
    (st : String × List String) :
    ((discoverServicesVisit config acc st).services = acc.services ∨
     (discoverServicesVisit config acc st).services = upsert acc.services st.1 st.2)
    ∧ (discoverServicesVisit config acc st).stopped = acc.stopped := by
  simp only [discoverServicesVisit]
  split
  · split
    · split
      · exact ⟨Or.inr rfl, rfl⟩
      · exact ⟨Or.inr rfl, rfl⟩
    · exact ⟨Or.inr rfl, rfl⟩
  · split
    · split
      · exact ⟨Or.inr rfl, rfl⟩
      · exact ⟨Or.inl rfl, rfl⟩
    · exact ⟨Or.inl rfl, rfl⟩

lemma discoverServicesStep_foldl (config : Config) :
    ∀ (current : List (String × List String)) (acc : DiscoveryStepResult),
      (∀ s, kvLookup acc.services s ≠ none →
        kvLookup (current.foldl (discoverServicesVisit config) acc).services s ≠ none)
      ∧ (current.foldl (discoverServicesVisit config) acc).stopped = acc.stopped := by
  intro current
  induction current with
  | nil => intro acc; exact ⟨fun s h => h, rfl⟩
  | cons st rest ih =>
    intro acc
    rw [List.foldl_cons]
    obtain ⟨hcase, hstop⟩ := discoverServicesVisit_cases config acc st
    refine ⟨fun s h => (ih _).1 s ?_, by rw [(ih _).2, hstop]⟩
    rcases hcase with hc | hc
    · rwa [hc]
    · rw [hc]
      exact kvLookup_upsert_mono _ _ _ _ h

lemma discoverNodesVisit_cases (acc : NodeDiscoveryStepResult) (nodeName : String) :
    ((discoverNodesVisit acc nodeName).nodes = acc.nodes ∨
     (discoverNodesVisit acc nodeName).nodes = acc.nodes ++ [nodeName])
    ∧ (discoverNodesVisit acc nodeName).stopped = acc.stopped := by
  unfold discoverNodesVisit
  split
  · exact ⟨Or.inr rfl, rfl⟩
  · exact ⟨Or.inl rfl, rfl⟩

lemma discoverNodesStep_foldl :
    ∀ (current : List String) (acc : NodeDiscoveryStepResult),
      (∀ n, containsStr acc.nodes n = true →
        containsStr (current.foldl discoverNodesVisit acc).nodes n = true)
      ∧ (current.foldl discoverNodesVisit acc).stopped = acc.stopped := by
  intro current
  induction current with
  | nil => intro acc; exact ⟨fun n h => h, rfl⟩
  | cons nodeName rest ih =>
    intro acc
    rw [List.foldl_cons]
    obtain ⟨hcase, hstop⟩ := discoverNodesVisit_cases acc nodeName
    refine ⟨fun n h => (ih _).1 n ?_, by rw [(ih _).2, hstop]⟩
    rcases hcase with hc | hc
    · rwa [hc]
    · rw [hc]
      exact containsStr_append_left _ _ _ h

/-- C9 counterexample: a discovery step whose snapshot is empty keeps
the previously tracked service `redis` and node `node1` tracked and
stops nothing. -/
theorem discovery_absent_subject_retained_cex :
    kvLookup (discoverServicesStep demoConfig [("redis", ["alpha"])] []).services "redis"
      = some ["alpha"]
    ∧ (discoverServicesStep demoConfig [("redis", ["alpha"])] []).stopped = []
    ∧ (discoverNodesStep ["node1"] []).nodes = ["node1"]
    ∧ (discoverNodesStep ["node1"] []).stopped = [] := by decide

/-- C9 (amended): discovery only ever adds monitors — a tracked
service or node absent from the latest snapshot remains tracked after
the step, and no monitor is signalled to stop. -/
theorem discovery_never_retires (config : Config)
    (services current : List (String × List String))
    (nodes currentNodes : List String) :
    (∀ s, kvLookup services s ≠ none →
      kvLookup (discoverServicesStep config services current).services s ≠ none)
    ∧ (discoverServicesStep config services current).stopped = []
    ∧ (∀ n, containsStr nodes n = true →
        containsStr (discoverNodesStep nodes currentNodes).nodes n = true)
    ∧ (discoverNodesStep nodes currentNodes).stopped = [] := by
  refine ⟨fun s h => (discoverServicesStep_foldl config current ⟨services, [], []⟩).1 s h,
    (discoverServicesStep_foldl config current ⟨services, [], []⟩).2,
    fun n h => (discoverNodesStep_foldl currentNodes ⟨nodes, [], []⟩).1 n h,
    (discoverNodesStep_foldl currentNodes ⟨nodes, [], []⟩).2⟩

/-- Witness for the amended C9 at concrete tracking state. -/
theorem discovery_never_retires_witness :
    kvLookup [("redis", (["alpha"] : List String))] "redis" ≠ none ∧
    kvLookup (discoverServicesStep demoConfig [("redis", ["alpha"])] []).services "redis" ≠ none ∧
    containsStr (discoverNodesStep ["node1"] []).nodes "node1" = true :=
  ⟨by decide,
   (discovery_never_retires demoConfig [("redis", ["alpha"])] [] ["node1"] []).1
     "redis" (by decide),
   (discovery_never_retires demoConfig [("redis", ["alpha"])] [] ["node1"] []).2.2.1
     "node1" (by decide)⟩
